import Mathlib

/-!
Verification development for the health-tracker repository.

The repository under scrutiny is a personal health-data logging application:
a React frontend (pages plus an axios API client) in front of a REST backend.
The backend itself is not part of the sources, so the backend operations
(Garmin sync upsert, daily summary aggregation, per-resource CRUD) are
modelled from the specification text, while the frontend computations
(quick-add recent foods, Garmin summary statistics, settings submission,
sync handlers, the API client export list) are embedded directly from the
JavaScript sources.

Conventions: calendar dates are modelled as day ordinals (`Nat`); JavaScript
numbers that only ever hold integers are modelled as `Nat`; exact rational
arithmetic (`Rat`) models the JavaScript divisions that appear in the
summary-statistics computation; nullable JavaScript values are `Option`.
-/

namespace HealthTracker

/-! ## Garmin daily-metric store and the sync operation (modelled from the spec) -/

/-- Calendar dates, modelled as day ordinals. -/
abbrev Date := Nat

/-- Metric payload of a GarminDailyMetric row. The spec lists steps, heart
rate, sleep stages, stress and body battery. -/
structure GarminMetricData where
  steps : Nat
  restingHeartRate : Nat
  sleepDurationSeconds : Nat
  avgStressLevel : Nat
  bodyBatteryHighest : Nat
deriving DecidableEq, Repr

/-- Garmin metric store: the rows of the GarminDailyMetric table, each row
keyed by its calendar date. -/
abbrev GarminStore := List (Date × GarminMetricData)

/-- Row-presence check used by the sync guard (skip if already present). -/
def hasDate (s : GarminStore) (d : Date) : Bool :=
  s.any (fun r => r.1 == d)

/-- Row lookup: the metric payload stored for date `d`, if any. -/
def getRow (s : GarminStore) (d : Date) : Option GarminMetricData :=
  (s.find? (fun r => r.1 == d)).map Prod.snd

/-- Modelled from the spec: the upsert-by-date database write of the sync
job. When a row for `d` is present it is overwritten in place; otherwise a
new row is inserted. -/
def upsert (s : GarminStore) (d : Date) (m : GarminMetricData) : GarminStore :=
  if hasDate s d then s.map (fun r => if r.1 == d then (d, m) else r)
  else (d, m) :: s

/-- Modelled from the spec: the backend `/garmin/sync` operation, absent
from the sources (only its frontend callers `syncGarminData` and
`handleManualSync` are present). Per the spec it must sync GarminData for
date D, skip if already present unless force=true, else write the computed
daily aggregate. `fetch` stands for the external Garmin client computing
the daily aggregate for a date. -/
def sync (fetch : Date → GarminMetricData) (d : Date) (force : Bool)
    (s : GarminStore) : GarminStore :=
  if hasDate s d && !force then s else upsert s d (fetch d)

lemma hasDate_upsert (s : GarminStore) (d : Date) (m : GarminMetricData) :
    hasDate (upsert s d m) d = true := by
  unfold upsert
  by_cases h : hasDate s d
  · rw [if_pos h]
    rcases List.any_eq_true.mp h with ⟨r, hr, hkey⟩
    refine List.any_eq_true.mpr ⟨(d, m), List.mem_map.mpr ⟨r, hr, ?_⟩, by simp⟩
    simp [hkey]
  · rw [if_neg h]
    simp [hasDate]

lemma hasDate_sync (fetch : Date → GarminMetricData) (d : Date) (force : Bool)
    (s : GarminStore) : hasDate (sync fetch d force s) d = true := by
  unfold sync
  by_cases h : (hasDate s d && !force) = true
  · rw [if_pos h]
    exact (Bool.and_eq_true _ _).mp h |>.1
  · rw [if_neg h]
    exact hasDate_upsert s d (fetch d)

lemma sync_skip (fetch : Date → GarminMetricData) (d : Date) (s : GarminStore)
    (h : hasDate s d = true) : sync fetch d false s = s := by
  unfold sync
  simp [h]

/-- C1: running the Garmin sync twice with force=false produces the same
stored Garmin metric state as running it once, for every date, every
fetched aggregate and every starting store. -/
theorem sync_false_idempotent (fetch : Date → GarminMetricData) (d : Date)
    (s : GarminStore) :
    sync fetch d false (sync fetch d false s) = sync fetch d false s :=
  sync_skip fetch d (sync fetch d false s) (hasDate_sync fetch d false s)

lemma getRow_map_overwrite (t : GarminStore) (d x : Date) (m : GarminMetricData) :
    getRow (t.map (fun r => if r.1 == d then (d, m) else r)) x =
      if x = d then (if hasDate t d then some m else none) else getRow t x := by
  induction t with
  | nil =>
    by_cases hx : x = d <;> simp [getRow, hasDate, hx]
  | cons r t ih =>
    obtain ⟨k, v⟩ := r
    simp only [getRow, hasDate] at ih ⊢
    simp only [List.map_cons, List.any_cons]
    by_cases hk : k = d
    · subst hk
      by_cases hx : x = k
      · subst hx
        simp [List.find?_cons]
      · rw [show (if ((k, v).1 == k) = true then (k, m) else (k, v)) = (k, m) from
          by simp]
        rw [List.find?_cons_of_neg _ (by simp [Ne.symm hx]),
          List.find?_cons_of_neg _ (by simp [Ne.symm hx]),
          ih, if_neg hx, if_neg hx]
    · rw [show (if ((k, v).1 == d) = true then (d, m) else (k, v)) = (k, v) from
        by simp [hk]]
      by_cases hx : k = x
      · subst hx
        rw [List.find?_cons_of_pos _ (by simp),
          List.find?_cons_of_pos _ (by simp), if_neg hk]
      · rw [List.find?_cons_of_neg _ (by simp [hx]),
          List.find?_cons_of_neg _ (by simp [hx]), ih]
        by_cases hxd : x = d
        · rw [if_pos hxd, if_pos hxd]
          have hkd : (k == d) = false := beq_eq_false_iff_ne.mpr hk
          refine if_congr ?_ rfl rfl
          rw [Bool.or_eq_true, hkd]
          simp
        · rw [if_neg hxd, if_neg hxd]

lemma getRow_upsert (s : GarminStore) (d : Date) (m : GarminMetricData)
    (h : hasDate s d = true) (x : Date) :
    getRow (upsert s d m) x = if x = d then some m else getRow s x := by
  unfold upsert
  rw [if_pos h, getRow_map_overwrite, h]
  by_cases hx : x = d <;> simp [hx]

/-- C2: when a row for date D already exists, sync with force=false leaves
the store unchanged (the sync is skipped), while sync with force=true
overwrites the row for D with the newly computed daily aggregate and leaves
the row of every other date as it was. -/
theorem sync_existing_skip_unless_force (fetch : Date → GarminMetricData)
    (d : Date) (s : GarminStore) (h : hasDate s d = true) :
    sync fetch d false s = s ∧
      ∀ x : Date, getRow (sync fetch d true s) x =
        if x = d then some (fetch d) else getRow s x := by
  refine ⟨sync_skip fetch d s h, fun x => ?_⟩
  have hc : (hasDate s d && !true) = false := by simp
  unfold sync
  rw [hc, if_neg (by simp)]
  exact getRow_upsert s d (fetch d) h x

/-- Concrete external Garmin client used in witnesses. -/
def fetchDemo : Date → GarminMetricData := fun d =>
  { steps := 1000 * d, restingHeartRate := 60, sleepDurationSeconds := 28800,
    avgStressLevel := 25, bodyBatteryHighest := 90 }

/-- Concrete two-row Garmin store used in witnesses. -/
def storeDemo : GarminStore :=
  [(1, fetchDemo 1),
   (2, { steps := 5, restingHeartRate := 61, sleepDurationSeconds := 0,
         avgStressLevel := 0, bodyBatteryHighest := 10 })]

/-- Witness for C2 at the concrete store `storeDemo` and date 1. -/
theorem sync_existing_skip_unless_force_witness :
    hasDate storeDemo 1 = true ∧
      sync fetchDemo 1 false storeDemo = storeDemo ∧
      getRow (sync fetchDemo 1 true storeDemo) 1 = some (fetchDemo 1) ∧
      getRow (sync fetchDemo 1 true storeDemo) 2 = getRow storeDemo 2 := by
  have h : hasDate storeDemo 1 = true := by decide
  refine ⟨h, (sync_existing_skip_unless_force fetchDemo 1 storeDemo h).1, ?_, ?_⟩
  · rw [(sync_existing_skip_unless_force fetchDemo 1 storeDemo h).2 1]
    simp
  · rw [(sync_existing_skip_unless_force fetchDemo 1 storeDemo h).2 2]
    simp

/-- Reachable Garmin stores: the empty table, and anything obtained from a
reachable store by a sync operation. -/
inductive ReachableStore : GarminStore → Prop
  | init : ReachableStore []
  | step (fetch : Date → GarminMetricData) (d : Date) (force : Bool)
      (s : GarminStore) : ReachableStore s → ReachableStore (sync fetch d force s)

/-- One row per calendar date: the date keys of the store are pairwise
distinct. -/
def datesNodup (s : GarminStore) : Prop := (s.map Prod.fst).Nodup

lemma keys_overwrite (s : GarminStore) (d : Date) (m : GarminMetricData) :
    (s.map (fun r => if r.1 == d then (d, m) else r)).map Prod.fst
      = s.map Prod.fst := by
  rw [List.map_map]
  apply List.map_congr_left
  intro r _
  by_cases hr : r.1 = d <;> simp [Function.comp, hr]

lemma not_mem_keys_of_hasDate_false (s : GarminStore) (d : Date)
    (h : hasDate s d = false) : d ∉ s.map Prod.fst := by
  intro hm
  rcases List.mem_map.mp hm with ⟨r, hr, hkey⟩
  have : s.any (fun r => r.1 == d) = true :=
    List.any_eq_true.mpr ⟨r, hr, by simp [hkey]⟩
  rw [hasDate] at h
  rw [h] at this
  exact Bool.false_ne_true this

lemma datesNodup_sync (fetch : Date → GarminMetricData) (d : Date)
    (force : Bool) (s : GarminStore) (h : datesNodup s) :
    datesNodup (sync fetch d force s) := by
  unfold sync
  by_cases hc : (hasDate s d && !force) = true
  · rw [if_pos hc]
    exact h
  · rw [if_neg hc]
    unfold upsert
    by_cases hd : hasDate s d
    · rw [if_pos hd]
      unfold datesNodup at h ⊢
      rw [keys_overwrite]
      exact h
    · rw [if_neg hd]
      unfold datesNodup at h ⊢
      rw [List.map_cons]
      exact List.nodup_cons.mpr
        ⟨not_mem_keys_of_hasDate_false s d (Bool.of_not_eq_true hd), h⟩

/-- C5: every reachable Garmin store has at most one row per calendar date
(its date keys are pairwise distinct), and every sync operation preserves
this invariant. -/
theorem garmin_store_one_row_per_date :
    (∀ s : GarminStore, ReachableStore s → datesNodup s) ∧
      (∀ (fetch : Date → GarminMetricData) (d : Date) (force : Bool)
          (s : GarminStore), datesNodup s → datesNodup (sync fetch d force s)) := by
  refine ⟨?_, datesNodup_sync⟩
  intro s hs
  induction hs with
  | init => simp [datesNodup]
  | step fetch d force s _ ih => exact datesNodup_sync fetch d force s ih

/-- Witness for C5: the invariant holds at a concrete reachable store, and
the preservation half applies at the concrete store `storeDemo`. -/
theorem garmin_store_one_row_per_date_witness :
    datesNodup (sync fetchDemo 2 false []) ∧
      datesNodup (sync fetchDemo 3 false storeDemo) := by
  constructor
  · exact garmin_store_one_row_per_date.1 _
      (ReachableStore.step fetchDemo 2 false [] ReachableStore.init)
  · refine garmin_store_one_row_per_date.2 fetchDemo 3 false storeDemo ?_
    unfold datesNodup
    decide

/-! ## Daily summary aggregation (modelled from the spec) -/

/-- Food log entry of the data model, reduced to the fields the summary
aggregation reads. -/
structure FoodEntry where
  id : Nat
  date : Date
  description : String
deriving DecidableEq, Repr

/-- Seizure log entry, reduced to the fields the summary aggregation reads. -/
structure SeizureEntry where
  id : Nat
  date : Date
deriving DecidableEq, Repr

/-- Medication log entry, reduced to the fields the summary aggregation
reads. -/
structure MedicationEntry where
  id : Nat
  date : Date
deriving DecidableEq, Repr

/-- Water intake log entry. -/
structure WaterEntry where
  id : Nat
  date : Date
  amount_ml : Nat
deriving DecidableEq, Repr

/-- Garmin workout session (the Activity entity, one row per workout,
foreign-keyed to date). -/
structure ActivityEntry where
  id : Nat
  date : Date
  calories : Nat
deriving DecidableEq, Repr

/-- Whole-application store backing the REST API: the per-entity logs plus
the Garmin daily-metric table. -/
structure AppState where
  food : List FoodEntry
  seizures : List SeizureEntry
  medications : List MedicationEntry
  water : List WaterEntry
  activities : List ActivityEntry
  garmin : GarminStore
deriving Repr

/-- Shape of the daily-summary response consumed by the Dashboard page
(food_entries, seizures, medication_count, total_water_ml, activities,
garmin_data). -/
structure DailySummary where
  food_entries : List FoodEntry
  seizures : List SeizureEntry
  medication_count : Nat
  total_water_ml : Nat
  activities : List ActivityEntry
  garmin_data : Option GarminMetricData
deriving Repr

/-- Modelled from the spec: the daily summary, a read-time aggregation
joining the entries logged for the requested date with the Garmin metric
row of that date. The backend endpoint is absent from the sources; only its
caller `getTodaySummary` and the Dashboard rendering are present. -/
def dailySummary (st : AppState) (d : Date) : DailySummary :=
  { food_entries := st.food.filter (fun e => e.date == d)
    seizures := st.seizures.filter (fun e => e.date == d)
    medication_count := (st.medications.filter (fun e => e.date == d)).length
    total_water_ml :=
      ((st.water.filter (fun e => e.date == d)).map WaterEntry.amount_ml).sum
    activities := st.activities.filter (fun e => e.date == d)
    garmin_data := getRow st.garmin d }

/-- Modelled from the spec: the summary endpoint as a state transformer. A
read-time aggregation leaves the store exactly as it found it. -/
def dailySummaryEndpoint (st : AppState) (d : Date) : AppState × DailySummary :=
  (st, dailySummary st d)

lemma sum_filter_eq_sum_ite (l : List WaterEntry) (d : Date) :
    ((l.filter (fun e => e.date == d)).map WaterEntry.amount_ml).sum
      = (l.map (fun e => if e.date = d then e.amount_ml else 0)).sum := by
  induction l with
  | nil => rfl
  | cons e l ih =>
    by_cases h : e.date = d
    · simp [List.filter_cons, h, ih]
    · simp [List.filter_cons, beq_eq_false_iff_ne.mpr h, h, ih]

lemma mem_of_getRow_eq_some (s : GarminStore) (d : Date) (m : GarminMetricData)
    (h : getRow s d = some m) : (d, m) ∈ s := by
  simp only [getRow] at h
  rcases Option.map_eq_some'.mp h with ⟨r, hr, hsnd⟩
  have hmem := List.mem_of_find?_eq_some hr
  have hkey := List.find?_some hr
  have : r = (d, m) := by
    obtain ⟨a, b⟩ := r
    simp at hkey hsnd
    simp [hkey, hsnd]
  rw [this] at hmem
  exact hmem

lemma getRow_some_of_hasDate (s : GarminStore) (d : Date)
    (h : hasDate s d = true) : ∃ m, getRow s d = some m ∧ (d, m) ∈ s := by
  rcases List.any_eq_true.mp h with ⟨r, hr, hkey⟩
  cases hfind : s.find? (fun r => r.1 == d) with
  | none =>
    exact absurd hkey (List.find?_eq_none.mp hfind r hr)
  | some r0 =>
    refine ⟨r0.2, by simp [getRow, hfind], ?_⟩
    have hmem := List.mem_of_find?_eq_some hfind
    have hkey0 := List.find?_some hfind
    obtain ⟨a, b⟩ := r0
    simp at hkey0
    subst hkey0
    exact hmem

lemma getRow_eq_of_mem_of_nodup (s : GarminStore) (d : Date)
    (m : GarminMetricData) :
    datesNodup s → (d, m) ∈ s → getRow s d = some m := by
  induction s with
  | nil =>
    intro _ hm
    cases hm
  | cons r t ih =>
    intro hnd hm
    unfold datesNodup at hnd
    rw [List.map_cons, List.nodup_cons] at hnd
    rcases List.mem_cons.mp hm with heq | hm2
    · subst heq
      unfold getRow
      rw [List.find?_cons_of_pos _ (by simp)]
      rfl
    · have hdk : d ∈ t.map Prod.fst := List.mem_map.mpr ⟨(d, m), hm2, rfl⟩
      have hne : ¬ r.1 = d := fun hh => hnd.1 (by rw [hh]; exact hdk)
      unfold getRow at ih ⊢
      rw [List.find?_cons_of_neg _ (by simp [hne])]
      exact ih hnd.2 hm2

/-- C6: the daily summary for date D performs no writes (the endpoint
returns the store unchanged) and joins exactly the entries logged for date
D: its food entries, seizures, medication count, water total and activities
range over precisely the day-D rows of the respective logs, and its Garmin
payload is exactly the join with the Garmin metric row of date D: any
returned payload is stored for date D, a payload is present whenever the
store has a date-D row, and under the one-row-per-date invariant it is
precisely the stored row. -/
theorem dailySummary_reads_exactly_day (st : AppState) (d : Date) :
    (dailySummaryEndpoint st d).1 = st ∧
      (∀ e, e ∈ (dailySummary st d).food_entries ↔ e ∈ st.food ∧ e.date = d) ∧
      (∀ e, e ∈ (dailySummary st d).seizures ↔ e ∈ st.seizures ∧ e.date = d) ∧
      (dailySummary st d).medication_count
        = st.medications.countP (fun e => e.date == d) ∧
      (dailySummary st d).total_water_ml
        = (st.water.map (fun e => if e.date = d then e.amount_ml else 0)).sum ∧
      (∀ e, e ∈ (dailySummary st d).activities ↔ e ∈ st.activities ∧ e.date = d) ∧
      (∀ m, (dailySummary st d).garmin_data = some m → (d, m) ∈ st.garmin) ∧
      (hasDate st.garmin d = true →
        ∃ m, (dailySummary st d).garmin_data = some m ∧ (d, m) ∈ st.garmin) ∧
      (datesNodup st.garmin → ∀ m, (d, m) ∈ st.garmin →
        (dailySummary st d).garmin_data = some m) := by
  refine ⟨rfl, ?_, ?_, ?_, ?_, ?_, ?_, ?_, ?_⟩
  · intro e
    simp [dailySummary, List.mem_filter]
  · intro e
    simp [dailySummary, List.mem_filter]
  · simp [dailySummary, List.countP_eq_length_filter]
  · exact sum_filter_eq_sum_ite st.water d
  · intro e
    simp [dailySummary, List.mem_filter]
  · intro m hm
    exact mem_of_getRow_eq_some st.garmin d m hm
  · intro h
    exact getRow_some_of_hasDate st.garmin d h
  · intro hnd m hm
    exact getRow_eq_of_mem_of_nodup st.garmin d m hnd hm

/-- Concrete application store used in witnesses. -/
def appStateDemo : AppState :=
  { food := [{ id := 1, date := 5, description := "porridge" },
             { id := 2, date := 6, description := "soup" }]
    seizures := [{ id := 1, date := 5 }]
    medications := [{ id := 1, date := 5 }, { id := 2, date := 5 }]
    water := [{ id := 1, date := 5, amount_ml := 250 },
              { id := 2, date := 6, amount_ml := 500 }]
    activities := [{ id := 1, date := 5, calories := 321 }]
    garmin := [(5, fetchDemo 5)] }

/-- Witness for C6 at the concrete store `appStateDemo` and date 5: the
no-write half, the per-log join at a concrete entry, and both halves of the
Garmin join (a payload exists for the stored date, and it is exactly the
stored row). -/
theorem dailySummary_reads_exactly_day_witness :
    (dailySummaryEndpoint appStateDemo 5).1 = appStateDemo ∧
      ((⟨1, 5, "porridge"⟩ : FoodEntry) ∈ (dailySummary appStateDemo 5).food_entries
        ↔ (⟨1, 5, "porridge"⟩ : FoodEntry) ∈ appStateDemo.food
            ∧ (5 : Date) = 5) ∧
      (dailySummary appStateDemo 5).medication_count
        = appStateDemo.medications.countP (fun e => e.date == 5) ∧
      (∃ m, (dailySummary appStateDemo 5).garmin_data = some m
        ∧ (5, m) ∈ appStateDemo.garmin) ∧
      (dailySummary appStateDemo 5).garmin_data = some (fetchDemo 5) := by
  have h := dailySummary_reads_exactly_day appStateDemo 5
  refine ⟨h.1, h.2.1 ⟨1, 5, "porridge"⟩, h.2.2.2.1, ?_, ?_⟩
  · exact h.2.2.2.2.2.2.2.1 (by decide)
  · exact h.2.2.2.2.2.2.2.2 (by unfold datesNodup; decide) (fetchDemo 5) (by decide)

/-! ## Per-resource REST CRUD (modelled from the spec) -/

/-- Row of a generic log resource: an id assigned by the store, the
timestamp date, and the remaining entity fields collapsed into one value. -/
structure ResourceEntry where
  id : Nat
  date : Date
  fields : String
deriving DecidableEq, Repr

/-- Backing table of one REST resource together with its id counter. -/
structure ResourceStore where
  rows : List ResourceEntry
  nextId : Nat
deriving DecidableEq, Repr

/-- Modelled from the spec: REST create (`POST /resource/`). A fresh id is
assigned and the new row is appended; the assigned id is returned. -/
def createEntry (st : ResourceStore) (d : Date) (f : String) :
    ResourceStore × Nat :=
  ({ rows := st.rows ++ [{ id := st.nextId, date := d, fields := f }],
     nextId := st.nextId + 1 }, st.nextId)

/-- Modelled from the spec: REST read with a date-range query
(`GET /resource/?start_date=lo&end_date=hi`). -/
def readRange (st : ResourceStore) (lo hi : Date) : List ResourceEntry :=
  st.rows.filter (fun e => lo ≤ e.date && e.date ≤ hi)

/-- Modelled from the spec: REST update (`PUT /resource/:id`), replacing the
fields of the row with the given id. -/
def updateEntry (st : ResourceStore) (i : Nat) (f : String) : ResourceStore :=
  { st with rows := st.rows.map (fun e => if e.id == i then { e with fields := f } else e) }

/-- Modelled from the spec: REST delete (`DELETE /resource/:id`). -/
def deleteEntry (st : ResourceStore) (i : Nat) : ResourceStore :=
  { st with rows := st.rows.filter (fun e => e.id != i) }

/-- C7: the CRUD cycle round-trips. Creating an entry and reading a date
range containing its date returns the created row with its fields; updating
that row by its id and reading again returns the new fields; deleting it
and reading again returns no row with that id. -/
theorem crud_round_trip (st : ResourceStore) (d : Date) (f0 f1 : String)
    (lo hi : Date) (hlo : lo ≤ d) (hhi : d ≤ hi) :
    ({ id := (createEntry st d f0).2, date := d, fields := f0 } : ResourceEntry)
        ∈ readRange (createEntry st d f0).1 lo hi ∧
      ({ id := (createEntry st d f0).2, date := d, fields := f1 } : ResourceEntry)
        ∈ readRange (updateEntry (createEntry st d f0).1 (createEntry st d f0).2 f1) lo hi ∧
      ∀ e ∈ readRange
          (deleteEntry (updateEntry (createEntry st d f0).1 (createEntry st d f0).2 f1)
            (createEntry st d f0).2) lo hi,
        e.id ≠ (createEntry st d f0).2 := by
  refine ⟨?_, ?_, ?_⟩
  · refine List.mem_filter.mpr ⟨?_, by simp [hlo, hhi]⟩
    simp [createEntry]
  · refine List.mem_filter.mpr ⟨?_, by simp [hlo, hhi]⟩
    simp only [createEntry, updateEntry, List.map_append]
    refine List.mem_append.mpr (Or.inr ?_)
    simp
  · intro e he
    have hrow := (List.mem_filter.mp he).1
    have hid := (List.mem_filter.mp hrow).2
    intro hcontra
    rw [hcontra] at hid
    simp at hid

/-- Concrete resource store used in the C7 witness. -/
def resourceDemo : ResourceStore :=
  { rows := [{ id := 0, date := 3, fields := "keppra 500mg" }], nextId := 1 }

/-- Witness for C7: the round trip evaluated at a concrete store, date
range 2..9 and date 4. -/
theorem crud_round_trip_witness :
    (2 : Date) ≤ 4 ∧ (4 : Date) ≤ 9 ∧
      ({ id := 1, date := 4, fields := "eggs" } : ResourceEntry)
        ∈ readRange (createEntry resourceDemo 4 "eggs").1 2 9 ∧
      ({ id := 1, date := 4, fields := "toast" } : ResourceEntry)
        ∈ readRange (updateEntry (createEntry resourceDemo 4 "eggs").1 1 "toast") 2 9 := by
  have h := crud_round_trip resourceDemo 4 "eggs" "toast" 2 9 (by decide) (by decide)
  exact ⟨by decide, by decide, h.1, h.2.1⟩

/-! ## Frontend sync handlers (embedded from Dashboard and GarminData) -/

/-- Outcome of the single HTTP sync request: a resolved response carrying an
optional message field, or a rejected request carrying an optional detail
field. -/
inductive SyncOutcome
  | success (message : Option String)
  | failure (detail : Option String)
deriving DecidableEq, Repr

/-- Observable effects of the sync handlers: the HTTP request itself, the
query refetch and invalidation, the window alert of the Dashboard handler,
and the toast-style sync message of the GarminData handler (with its
isError flag). -/
inductive UiAction
  | sendSyncRequest (date : Option Date) (force : Bool)
  | refetchSummary
  | invalidateGarminQueries
  | showAlert (text : String)
  | setSyncMessage (isError : Bool) (text : String)
deriving DecidableEq, Repr

/-- Embedding of `handleSync` in the Dashboard page: it awaits one
`syncGarminData()` call (date defaulted to null, force defaulted to false),
refetches the summary on success, and shows a window alert on failure. -/
def handleSync (outcome : SyncOutcome) : List UiAction :=
  UiAction.sendSyncRequest none false ::
    match outcome with
    | SyncOutcome.success _ => [UiAction.refetchSummary]
    | SyncOutcome.failure _ =>
        [UiAction.showAlert
          "Failed to sync Garmin data. Please check your credentials in Settings."]

/-- Embedding of `handleManualSync` plus `syncMutation` in the GarminData
page: one `syncGarminData(date, force)` call; on success the Garmin queries
are invalidated and a success sync message is set from `response.data.message`
with a default; on error an error sync message is set from
`error.response.data.detail` with a default. -/
def handleManualSync (syncDate : Date) (syncForce : Bool)
    (outcome : SyncOutcome) : List UiAction :=
  UiAction.sendSyncRequest (some syncDate) syncForce ::
    match outcome with
    | SyncOutcome.success msg =>
        [UiAction.invalidateGarminQueries,
         UiAction.setSyncMessage false (msg.getD "Data synced successfully!")]
    | SyncOutcome.failure detail =>
        [UiAction.setSyncMessage true
          (detail.getD "Failed to sync data. Please check your Garmin credentials.")]

/-- Count of HTTP sync requests in a handler trace. -/
def countSyncRequests (trace : List UiAction) : Nat :=
  trace.countP (fun a =>
    match a with
    | UiAction.sendSyncRequest _ _ => true
    | _ => false)

/-- Test for an error report shown to the user (an alert, or a sync message
flagged as error). -/
def isErrorReport : UiAction → Bool
  | UiAction.showAlert _ => true
  | UiAction.setSyncMessage isError _ => isError
  | _ => false

/-- C3: each user sync action sends exactly one sync request regardless of
outcome (no automatic retry), and a failing outcome is reported to the user
as an alert or error toast in both sync handlers. -/
theorem sync_handlers_one_request_report_failure (outcome : SyncOutcome)
    (d : Date) (force : Bool) (detail : Option String) :
    countSyncRequests (handleSync outcome) = 1 ∧
      countSyncRequests (handleManualSync d force outcome) = 1 ∧
      (∃ a ∈ handleSync (SyncOutcome.failure detail), isErrorReport a = true) ∧
      (∃ a ∈ handleManualSync d force (SyncOutcome.failure detail),
        isErrorReport a = true) := by
  refine ⟨?_, ?_, ?_, ?_⟩
  · cases outcome <;> rfl
  · cases outcome <;> rfl
  · exact ⟨UiAction.showAlert
      "Failed to sync Garmin data. Please check your credentials in Settings.",
      by simp [handleSync], rfl⟩
  · refine ⟨UiAction.setSyncMessage true
      (detail.getD "Failed to sync data. Please check your Garmin credentials."),
      by simp [handleManualSync], rfl⟩

/-! ## Settings form submission (embedded from the Settings page) -/

/-- State of the Settings form: email, Garmin username, Garmin password
(all plain strings; an untouched password field holds the empty string). -/
structure SettingsForm where
  email : String
  garmin_username : String
  garmin_password : String
deriving DecidableEq, Repr

/-- Payload of the `PUT /user/me` request. A `none` password means the
`garmin_password` key was deleted from the object before sending. -/
structure UserUpdatePayload where
  email : String
  garmin_username : String
  garmin_password : Option String
deriving DecidableEq, Repr

/-- Embedding of `handleSubmit` in the Settings page: the form data is
copied, and when `garmin_password` is falsy (the empty string) the key is
deleted from the payload; otherwise it is sent as entered. -/
def settingsHandleSubmit (f : SettingsForm) : UserUpdatePayload :=
  { email := f.email
    garmin_username := f.garmin_username
    garmin_password :=
      if f.garmin_password == "" then none else some f.garmin_password }

/-- Stored user profile row. -/
structure StoredUser where
  email : String
  garmin_username : String
  garmin_password : String
deriving DecidableEq, Repr

/-- Modelled from the spec: the `PUT /user/me` endpoint (absent from the
sources, which hold only its caller `updateUser`). Per the settings page of
the repository, a payload without a `garmin_password` key keeps the stored
password (leave blank to keep existing password). -/
def applyUserUpdate (u : StoredUser) (p : UserUpdatePayload) : StoredUser :=
  { email := p.email
    garmin_username := p.garmin_username
    garmin_password := p.garmin_password.getD u.garmin_password }

/-- C9: submitting the Settings form with an empty password deletes the
`garmin_password` key from the payload, the request carries exactly the
email and Garmin username of the form, and the stored password is
unchanged by the update; a non-empty password is sent as entered. -/
theorem settings_submit_password_handling (f : SettingsForm) (u : StoredUser) :
    (f.garmin_password = "" →
        (settingsHandleSubmit f).garmin_password = none ∧
        (settingsHandleSubmit f).email = f.email ∧
        (settingsHandleSubmit f).garmin_username = f.garmin_username ∧
        (applyUserUpdate u (settingsHandleSubmit f)).garmin_password
          = u.garmin_password) ∧
      (f.garmin_password ≠ "" →
        (settingsHandleSubmit f).garmin_password = some f.garmin_password) := by
  constructor
  · intro h
    refine ⟨?_, rfl, rfl, ?_⟩
    · simp [settingsHandleSubmit, h]
    · simp [applyUserUpdate, settingsHandleSubmit, h]
  · intro h
    simp [settingsHandleSubmit, h]

/-- Witness for C9: a blank-password submission keeps the stored password,
and a non-blank submission sends the password as entered. -/
theorem settings_submit_password_handling_witness :
    (settingsHandleSubmit ⟨"a@b.c", "garmin@b.c", ""⟩).garmin_password = none ∧
      (applyUserUpdate ⟨"x", "y", "oldpw"⟩
          (settingsHandleSubmit ⟨"a@b.c", "garmin@b.c", ""⟩)).garmin_password
        = "oldpw" ∧
      (settingsHandleSubmit ⟨"a@b.c", "garmin@b.c", "newpw"⟩).garmin_password
        = some "newpw" := by
  refine ⟨?_, ?_, ?_⟩
  · exact ((settings_submit_password_handling ⟨"a@b.c", "garmin@b.c", ""⟩
      ⟨"x", "y", "oldpw"⟩).1 rfl).1
  · exact ((settings_submit_password_handling ⟨"a@b.c", "garmin@b.c", ""⟩
      ⟨"x", "y", "oldpw"⟩).1 rfl).2.2.2
  · exact (settings_submit_password_handling ⟨"a@b.c", "garmin@b.c", "newpw"⟩
      ⟨"x", "y", "oldpw"⟩).2 (by decide)

/-! ## Quick-add recent foods (embedded from the FoodLog page) -/

/-- Food entry as consumed by the FoodLog quick-add computation. -/
structure FoodEntryView where
  id : Nat
  description : String
  meal_type : String
  is_drink : Bool
  calories : Option Nat
deriving DecidableEq, Repr

/-- Lowercasing as performed by `toLowerCase` on the ASCII descriptions in
play, written at the character level so that it evaluates by kernel
reduction (it agrees with `String.toLower`, which maps `Char.toLower` over
the string). -/
def jsToLowerCase (s : String) : String :=
  String.mk (s.data.map Char.toLower)

/-- Deduplication key of the quick-add computation: the lowercased
description. -/
def foodKey (e : FoodEntryView) : String :=
  jsToLowerCase e.description

/-- Embedding of the Map-building loop of `recentEntries` in the FoodLog
page. The JavaScript builds a Map keyed by `entry.description.toLowerCase()`,
inserting each entry only when its key is absent; since a JavaScript Map
iterates values in insertion order, the resulting value list is the list of
first occurrences in encounter order. `seen` carries the key set of the Map
built so far. -/
def collectRecent (seen : List String) : List FoodEntryView → List FoodEntryView
  | [] => []
  | e :: rest =>
    if seen.contains (foodKey e) then collectRecent seen rest
    else e :: collectRecent (foodKey e :: seen) rest

/-- Embedding of `recentEntries` in the FoodLog page: the deduplicated
values, then `.slice(0, 10)`. -/
def recentEntries (l : List FoodEntryView) : List FoodEntryView :=
  (collectRecent [] l).take 10

lemma collectRecent_sublist (seen : List String) (l : List FoodEntryView) :
    (collectRecent seen l).Sublist l := by
  induction l generalizing seen with
  | nil => simp [collectRecent]
  | cons e rest ih =>
    rw [collectRecent]
    by_cases h : seen.contains (foodKey e)
    · rw [if_pos h]
      exact (ih seen).cons e
    · rw [if_neg h]
      exact (ih (foodKey e :: seen)).cons₂ e

lemma collectRecent_first_occurrence (seen : List String)
    (l : List FoodEntryView) :
    ∀ e ∈ collectRecent seen l,
      foodKey e ∉ seen ∧
        l.find? (fun x => foodKey x == foodKey e) = some e := by
  induction l generalizing seen with
  | nil => simp [collectRecent]
  | cons a rest ih =>
    intro e he
    rw [collectRecent] at he
    by_cases h : seen.contains (foodKey a)
    · rw [if_pos h] at he
      obtain ⟨hnot, hfind⟩ := ih seen e he
      refine ⟨hnot, ?_⟩
      rw [List.find?_cons_of_neg _ ?_, hfind]
      intro hcontra
      simp only [beq_iff_eq] at hcontra
      rw [hcontra] at h
      exact hnot (by simpa using h)
    · rw [if_neg h] at he
      rcases List.mem_cons.mp he with rfl | he2
      · refine ⟨fun hc => h (by simpa using hc), ?_⟩
        rw [List.find?_cons_of_pos _ (by simp)]
      · obtain ⟨hnot, hfind⟩ := ih (foodKey a :: seen) e he2
        have hne : foodKey a ≠ foodKey e := fun hc =>
          hnot (hc ▸ List.mem_cons_self _ _)
        refine ⟨fun hc => hnot (List.mem_cons_of_mem _ hc), ?_⟩
        rw [List.find?_cons_of_neg _ (by simp [hne]), hfind]

lemma collectRecent_keys_nodup (seen : List String) (l : List FoodEntryView) :
    ((collectRecent seen l).map foodKey).Nodup ∧
      ∀ k ∈ (collectRecent seen l).map foodKey, k ∉ seen := by
  induction l generalizing seen with
  | nil => simp [collectRecent]
  | cons a rest ih =>
    rw [collectRecent]
    by_cases h : seen.contains (foodKey a)
    · rw [if_pos h]
      exact ih seen
    · rw [if_neg h]
      obtain ⟨hnodup, hfresh⟩ := ih (foodKey a :: seen)
      rw [List.map_cons]
      constructor
      · refine List.nodup_cons.mpr ⟨?_, hnodup⟩
        intro hc
        exact hfresh _ hc (List.mem_cons_self _ _)
      · intro k hk
        rcases List.mem_cons.mp hk with rfl | hk2
        · exact fun hc => h (by simpa using hc)
        · exact fun hc => hfresh k hk2 (List.mem_cons_of_mem _ hc)

lemma collectRecent_complete (seen : List String) (l : List FoodEntryView) :
    ∀ x ∈ l, foodKey x ∈ seen ∨
      ∃ e ∈ collectRecent seen l, foodKey e = foodKey x := by
  induction l generalizing seen with
  | nil => simp
  | cons a rest ih =>
    intro x hx
    rw [collectRecent]
    by_cases h : seen.contains (foodKey a)
    · rw [if_pos h]
      rcases List.mem_cons.mp hx with rfl | hx2
      · exact Or.inl (by simpa using h)
      · exact ih seen x hx2
    · rw [if_neg h]
      rcases List.mem_cons.mp hx with rfl | hx2
      · exact Or.inr ⟨x, List.mem_cons_self _ _, rfl⟩
      · rcases ih (foodKey a :: seen) x hx2 with hseen | ⟨e, he, hkey⟩
        · rcases List.mem_cons.mp hseen with heq | hseen2
          · exact Or.inr ⟨a, List.mem_cons_self _ _, heq.symm⟩
          · exact Or.inl hseen2
        · exact Or.inr ⟨e, List.mem_cons_of_mem _ he, hkey⟩

/-- C8: the quick-add recent-foods list contains at most 10 entries, is a
subsequence of the fetched list (order of first occurrence preserved), has
pairwise distinct lowercased descriptions, every entry it keeps is the
first-occurring entry of its case-insensitive description, and before the
10-element truncation every fetched description is represented. -/
theorem recentEntries_spec (l : List FoodEntryView) :
    (recentEntries l).length ≤ 10 ∧
      (recentEntries l).Sublist l ∧
      ((recentEntries l).map foodKey).Nodup ∧
      (∀ e ∈ recentEntries l,
        l.find? (fun x => foodKey x == foodKey e) = some e) ∧
      (∀ x ∈ l, ∃ e ∈ collectRecent [] l, foodKey e = foodKey x) := by
  refine ⟨?_, ?_, ?_, ?_, ?_⟩
  · rw [recentEntries, List.length_take]
    exact min_le_left _ _
  · exact (List.take_sublist _ _).trans (collectRecent_sublist [] l)
  · refine List.Nodup.sublist ?_ (collectRecent_keys_nodup [] l).1
    exact List.Sublist.map foodKey (List.take_sublist _ _)
  · intro e he
    have hmem : e ∈ collectRecent [] l :=
      (List.take_sublist _ _).subset he
    exact (collectRecent_first_occurrence [] l e hmem).2
  · intro x hx
    rcases collectRecent_complete [] l x hx with hseen | hfound
    · exact absurd hseen (List.not_mem_nil _)
    · exact hfound

/-- Concrete fetched food list used in the C8 witness: five entries, two
case-insensitive duplicates. -/
def foodListDemo : List FoodEntryView :=
  [{ id := 1, description := "Oatmeal", meal_type := "breakfast",
     is_drink := false, calories := some 300 },
   { id := 2, description := "oatmeal", meal_type := "breakfast",
     is_drink := false, calories := some 320 },
   { id := 3, description := "Coffee", meal_type := "breakfast",
     is_drink := true, calories := some 5 },
   { id := 4, description := "COFFEE", meal_type := "snack",
     is_drink := true, calories := none },
   { id := 5, description := "Soup", meal_type := "lunch",
     is_drink := false, calories := some 250 }]

/-- Witness for C8 at the concrete list `foodListDemo`: the bound, the
first-occurrence property at the kept Coffee entry, and representation of
the duplicate description. -/
theorem recentEntries_spec_witness :
    (recentEntries foodListDemo).length ≤ 10 ∧
      foodListDemo.find?
          (fun x => foodKey x == foodKey
            { id := 3, description := "Coffee", meal_type := "breakfast",
              is_drink := true, calories := some 5 })
        = some { id := 3, description := "Coffee", meal_type := "breakfast",
                 is_drink := true, calories := some 5 } ∧
      ∃ e ∈ collectRecent [] foodListDemo,
        foodKey e = foodKey
          { id := 4, description := "COFFEE", meal_type := "snack",
            is_drink := true, calories := none } := by
  have h := recentEntries_spec foodListDemo
  refine ⟨h.1, ?_, ?_⟩
  · exact h.2.2.2.1
      { id := 3, description := "Coffee", meal_type := "breakfast",
        is_drink := true, calories := some 5 } (by decide)
  · exact h.2.2.2.2
      { id := 4, description := "COFFEE", meal_type := "snack",
        is_drink := true, calories := none } (by decide)

/-! ## Garmin summary statistics (embedded from the GarminData page) -/

/-- Row of the fetched Garmin range data as read by the summary computation;
each metric may be null. -/
structure GarminDayRow where
  steps : Option Nat
  sleep_duration_seconds : Option Nat
  resting_heart_rate : Option Nat
  body_battery_highest : Option Nat
deriving DecidableEq, Repr

/-- Summary card values. `avgSteps`, `avgRestingHR` and `avgBodyBattery` go
through `Math.round`; `avgSleepHours` is kept as the exact quotient (the
source applies only display formatting, `.toFixed(1)`, to it). -/
structure GarminSummaryStats where
  avgSteps : Int
  avgSleepHours : Rat
  avgRestingHR : Int
  avgBodyBattery : Int
deriving DecidableEq, Repr

/-- Rounding as performed by `Math.round`: half-up, the floor of x + 1/2. -/
def jsRound (q : Rat) : Int :=
  ⌊q + 1 / 2⌋

/-- Embedding of the `summary` computation in the GarminData page: when the
fetched list is non-empty, each average reduces the list with `(value || 0)`
starting from 0 and divides by the list length (sleep additionally by
3600); when the list is empty, the constant all-zero record is returned
without any division. -/
def summary (l : List GarminDayRow) : GarminSummaryStats :=
  if 0 < l.length then
    { avgSteps :=
        jsRound ((l.foldl (fun s d => s + ((d.steps.getD 0 : Nat) : Rat)) 0)
          / (l.length : Rat))
      avgSleepHours :=
        (l.foldl (fun s d => s + ((d.sleep_duration_seconds.getD 0 : Nat) : Rat)) 0)
          / (l.length : Rat) / 3600
      avgRestingHR :=
        jsRound ((l.foldl (fun s d => s + ((d.resting_heart_rate.getD 0 : Nat) : Rat)) 0)
          / (l.length : Rat))
      avgBodyBattery :=
        jsRound ((l.foldl (fun s d => s + ((d.body_battery_highest.getD 0 : Nat) : Rat)) 0)
          / (l.length : Rat)) }
  else
    { avgSteps := 0, avgSleepHours := 0, avgRestingHR := 0, avgBodyBattery := 0 }

lemma foldl_add_eq_sum (f : GarminDayRow → Rat) (l : List GarminDayRow) (a : Rat) :
    l.foldl (fun s d => s + f d) a = a + (l.map f).sum := by
  induction l generalizing a with
  | nil => simp
  | cons d t ih =>
    rw [List.foldl_cons, ih, List.map_cons, List.sum_cons, add_assoc]

/-- C10: the summary statistics are total. The empty list yields the
constant all-zero record (no division happens); a non-empty list yields,
for each metric, the sum over the list with missing values read as 0,
divided by the list length (and for sleep further by 3600), rounded where
the source rounds. -/
theorem summary_total_spec :
    summary [] = { avgSteps := 0, avgSleepHours := 0, avgRestingHR := 0,
                   avgBodyBattery := 0 } ∧
      ∀ l : List GarminDayRow, l ≠ [] →
        summary l =
          { avgSteps :=
              jsRound (((l.map (fun d => ((d.steps.getD 0 : Nat) : Rat))).sum)
                / (l.length : Rat))
            avgSleepHours :=
              ((l.map (fun d => ((d.sleep_duration_seconds.getD 0 : Nat) : Rat))).sum)
                / (l.length : Rat) / 3600
            avgRestingHR :=
              jsRound (((l.map (fun d => ((d.resting_heart_rate.getD 0 : Nat) : Rat))).sum)
                / (l.length : Rat))
            avgBodyBattery :=
              jsRound (((l.map (fun d => ((d.body_battery_highest.getD 0 : Nat) : Rat))).sum)
                / (l.length : Rat)) } := by
  constructor
  · rfl
  · intro l hl
    unfold summary
    rw [if_pos (List.length_pos.mpr hl)]
    rw [foldl_add_eq_sum (fun d => ((d.steps.getD 0 : Nat) : Rat)) l 0,
      foldl_add_eq_sum (fun d => ((d.sleep_duration_seconds.getD 0 : Nat) : Rat)) l 0,
      foldl_add_eq_sum (fun d => ((d.resting_heart_rate.getD 0 : Nat) : Rat)) l 0,
      foldl_add_eq_sum (fun d => ((d.body_battery_highest.getD 0 : Nat) : Rat)) l 0]
    simp

/-- Concrete fetched rows used in the C10 witness: every metric is missing
in one of the two rows. -/
def garminRowsDemo : List GarminDayRow :=
  [{ steps := some 100, sleep_duration_seconds := none,
     resting_heart_rate := some 60, body_battery_highest := none },
   { steps := none, sleep_duration_seconds := some 7200,
     resting_heart_rate := none, body_battery_highest := some 80 }]

/-- Witness for C10: the empty list gives the all-zero record, and the
concrete two-row list averages with missing metrics read as 0. -/
theorem summary_total_spec_witness :
    summary [] = { avgSteps := 0, avgSleepHours := 0, avgRestingHR := 0,
                   avgBodyBattery := 0 } ∧
      summary garminRowsDemo =
        { avgSteps := 50, avgSleepHours := 1, avgRestingHR := 30,
          avgBodyBattery := 40 } := by
  refine ⟨summary_total_spec.1, ?_⟩
  rw [summary_total_spec.2 garminRowsDemo (by decide)]
  simp [garminRowsDemo, jsRound]
  norm_num [Int.floor_eq_iff]

/-! ## API client module exports (embedded from client.js) -/

/-- Names bound with `export const` by the API client module
src/frontend/src/api/client.js, in source order (the module additionally
default-exports the axios instance). -/
def apiClientExports : List String :=
  ["getUser", "updateUser", "checkGarminConfigured",
   "syncGarminData", "getGarminData", "getActivities",
   "createFoodEntry", "getFoodEntries", "updateFoodEntry", "deleteFoodEntry",
   "createMedication", "getMedications", "updateMedication", "deleteMedication",
   "createMedicationSchedule", "getMedicationSchedules", "getMedicationSchedule",
   "updateMedicationSchedule", "deleteMedicationSchedule",
   "createSicknessEntry", "getSicknessEntries", "updateSicknessEntry",
   "deleteSicknessEntry",
   "createSeizure", "getSeizures", "updateSeizure", "deleteSeizure",
   "createDailyNote", "getDailyNotes", "getDailyNoteByDate", "updateDailyNote",
   "deleteDailyNote",
   "createWaterIntake", "getWaterIntake", "getDailyWaterTotal",
   "deleteWaterIntake",
   "getDailySummary", "getTodaySummary", "getDateRangeSummary",
   "exportData", "getAIAnalysisPrompt", "getAnalysisSummary"]

/-- Names imported from ../api/client by the HealthEvents page
(src/frontend/src/pages/HealthEvents.jsx, line 5). -/
def healthEventsClientImports : List String :=
  ["createHealthEvent", "getHealthEvents", "updateHealthEvent",
   "deleteHealthEvent"]

/-- C4 (failing-input evaluation): none of the four HealthEvent CRUD
functions imported by the HealthEvents page is exported by the API client
module, so the claimed create/read/update/delete operations for HealthEvent
do not exist in client.js and the import at the head of HealthEvents.jsx
names missing bindings. -/
theorem healthEvent_crud_missing_from_client :
    healthEventsClientImports.all
      (fun n => !(apiClientExports.contains n)) = true := by
  decide
